import Mathlib

/-!
Verification of the company-profile crawler/extractor service.

Shallow embedding of `api/src/service.py` (crawler, `analyze_website`) and
`api/src/ai_analyzer.py` (`get_company_profile` and its extraction subtasks).
External effects (HTTP fetches, the document/markdown conversion capability and
the text-extraction capability) are modelled as explicit environments; ghost
trace fields record the order of fetches, subtask settlements and the dependent
tier-2 invocation so that temporal claims can be stated.
-/

set_option linter.unusedVariables false

/-- Python values appearing in the profile dictionaries: a field is either a
plain string or a list of strings (the code's profile dicts mix both shapes). -/
inductive PyField where
  | s : String → PyField
  | l : List String → PyField
  deriving DecidableEq

/-- The fixed-schema company profile dictionary built by the code. -/
structure Profile where
  company_name : PyField
  service_lines : PyField
  company_description : PyField
  tier1_keywords : PyField
  tier2_keywords : PyField
  emails : PyField
  point_of_contact : PyField
  deriving DecidableEq

/-- Helper for Python `str.split(",")`: splits the character list at every
comma, keeping empty pieces, with `acc` the (reversed) current piece. -/
def pySplitAux : List Char → List Char → List (List Char)
  | [], acc => [acc.reverse]
  | c :: rest, acc =>
    if c = ',' then acc.reverse :: pySplitAux rest []
    else pySplitAux rest (c :: acc)

/-- Python `s.split(",")`: every comma is a separator, empty tokens are kept
and no whitespace is stripped. -/
def pySplit (s : String) : List String :=
  (pySplitAux s.data []).map (fun l => String.mk l)

/-! ## Embedding of `api/src/ai_analyzer.py` -/

namespace AiAnalyzer

/-- Environment for one run of `get_company_profile`: the outcome of the
`convert_html_to_markdown` call (it may raise, or return `response.text`,
which may be `None`), and the outcome of each `generate_content` call made by
the seven `extract_*` subtasks (each may raise, or return text, possibly
empty). -/
structure GenEnv where
  convertResult : Except String (Option String)
  nameResp : Except String String
  serviceResp : Except String String
  descResp : Except String String
  tier1Resp : Except String String
  emailsResp : Except String String
  pocResp : Except String String
  tier2Resp : Except String String

/-- Settled value of one extraction subtask as observed after
`asyncio.gather(..., return_exceptions=True)` and local processing: each
`extract_*` helper returns `response.text if response.text else "Unknown"`,
and an exception is replaced by `"Unknown"` by the caller. -/
def settleResp : Except String String → String
  | .error _ => "Unknown"
  | .ok t => if t = "" then "Unknown" else t

/-- A subtask "fails or returns empty": its `generate_content` call raised, or
returned empty text. -/
def respFails : Except String String → Bool
  | .error _ => true
  | .ok t => t == ""

/-- The list-field builder used in `get_company_profile`'s return expression:
`x.split(",") if x and x != "Unknown" else ["Unknown"]`. -/
def listField (raw : String) : List String :=
  if raw ≠ "" ∧ raw ≠ "Unknown" then pySplit raw else ["Unknown"]

/-- Ghost events recorded during `get_company_profile`: subtask `i` settled
with value `v` (after the gather barrier), and the dependent tier-2 subtask
was invoked with the settled tier-1 string embedded in its instruction. -/
inductive ExEvent where
  | settled : Nat → String → ExEvent
  | invokeTier2 : String → ExEvent
  deriving DecidableEq

/-- Embedding of `get_company_profile`. Returns the profile dictionary and the
ghost event trace. The `convertResult` branches model: outer exception (the
whole `try` body raised inside `convert_html_to_markdown`), `None` markdown
(the early-return branch), and successful conversion (gather of the six
independent subtasks, then the dependent tier-2 call). -/
def get_company_profile (env : GenEnv) : Profile × List ExEvent :=
  match env.convertResult with
  | .error _ =>
    ({ company_name := .s "Unknown", service_lines := .l ["Unknown"],
       company_description := .s "Unknown", tier1_keywords := .l ["Unknown"],
       tier2_keywords := .l ["Unknown"], emails := .l ["Unknown"],
       point_of_contact := .s "Unknown" }, [])
  | .ok none =>
    ({ company_name := .s "Unknown", service_lines := .s "Unknown",
       company_description := .s "Unknown", tier1_keywords := .s "Unknown",
       tier2_keywords := .s "Unknown", emails := .s "Unknown",
       point_of_contact := .s "Unknown" }, [])
  | .ok (some _) =>
    let company_name := settleResp env.nameResp
    let service_lines := settleResp env.serviceResp
    let company_description := settleResp env.descResp
    let tier_1_keywords := settleResp env.tier1Resp
    let emails := settleResp env.emailsResp
    let point_of_contact := settleResp env.pocResp
    let tier_2_keywords := settleResp env.tier2Resp
    ({ company_name := .s company_name,
       service_lines := .l (listField service_lines),
       company_description := .s company_description,
       tier1_keywords := .l (listField tier_1_keywords),
       tier2_keywords := .l (listField tier_2_keywords),
       emails := .l (listField emails),
       point_of_contact := .s point_of_contact },
     [ .settled 0 company_name, .settled 1 service_lines,
       .settled 2 company_description, .settled 3 tier_1_keywords,
       .settled 4 emails, .settled 5 point_of_contact,
       .invokeTier2 tier_1_keywords ])

/-- The `generate_content` outcome of independent subtask `i`, in the order of
the `tasks` list in `get_company_profile`. -/
def indResp (env : GenEnv) (i : Fin 6) : Except String String :=
  match i.val with
  | 0 => env.nameResp
  | 1 => env.serviceResp
  | 2 => env.descResp
  | 3 => env.tier1Resp
  | 4 => env.emailsResp
  | _ => env.pocResp

/-- The profile field produced from independent subtask `i`. -/
def fieldOf (p : Profile) (i : Fin 6) : PyField :=
  match i.val with
  | 0 => p.company_name
  | 1 => p.service_lines
  | 2 => p.company_description
  | 3 => p.tier1_keywords
  | 4 => p.emails
  | _ => p.point_of_contact

/-- Sentinel shape of field `i` in the post-extraction profile: scalar fields
get the string sentinel, list fields the one-element sentinel list. -/
def sentinelShape (i : Fin 6) : PyField :=
  match i.val with
  | 0 => .s "Unknown"
  | 1 => .l ["Unknown"]
  | 2 => .s "Unknown"
  | 3 => .l ["Unknown"]
  | 4 => .l ["Unknown"]
  | _ => .s "Unknown"

/-- Value shape of field `i` for a successfully extracted raw string `v`:
scalar fields hold `v` itself, list fields hold the comma-split of `v`. -/
def valueShape (i : Fin 6) (v : String) : PyField :=
  match i.val with
  | 0 => .s v
  | 1 => .l (pySplit v)
  | 2 => .s v
  | 3 => .l (pySplit v)
  | 4 => .l (pySplit v)
  | _ => .s v
end AiAnalyzer

/-! ## Embedding of `api/src/service.py` -/

namespace Service

/-- An HTTP response as seen through `requests.get`: status code and body. -/
structure Response where
  status : Nat
  text : String
  deriving DecidableEq

/-- The network: `requests.get url` either raises (network failure) or returns
a response. -/
structure FetchEnv where
  get : String → Except Unit Response

/-- State threaded through the crawl: the shared `_visited` set, the shared
`_html_contents` dict (insertion-ordered association list), and a ghost trace
of every `requests.get` call as a `(url, depth)` pair, in call order. -/
structure CrawlState where
  visited : List String
  htmlContents : List (String × String)
  fetched : List (String × Nat)
  deriving DecidableEq

/-- Python dict assignment `d[k] = v`: overwrite in place if the key exists,
otherwise append. -/
def dictInsert (d : List (String × String)) (k v : String) :
    List (String × String) :=
  if d.any (fun p => p.1 = k) then
    d.map (fun p => if p.1 = k then (k, v) else p)
  else d ++ [(k, v)]

/-- Does `needle` start `hay`? (Helper for the literal parts of the regexes.) -/
def startsList : List Char → List Char → Bool
  | [], _ => true
  | _ :: _, [] => false
  | a :: as, b :: bs => a == b && startsList as bs

/-- Python substring test `needle in hay`. -/
def containsSub (needle : List Char) : List Char → Bool
  | [] => needle.isEmpty
  | c :: t => startsList needle (c :: t) || containsSub needle t

/-- Character class `[^ \t\n\r"'>]` from the link-matching regex. -/
def isUrlChar (c : Char) : Bool :=
  !(c == ' ' || c == '\t' || c == '\n' || c == '\r' || c == '\"' ||
    c == Char.ofNat 39 || c == '>')

/-- Matches the literal `http[s]?://` prefix of both regexes, returning the
consumed characters and the rest. -/
def stripScheme : List Char → Option (List Char × List Char)
  | 'h' :: 't' :: 't' :: 'p' :: 's' :: ':' :: '/' :: '/' :: r =>
    some (['h', 't', 't', 'p', 's', ':', '/', '/'], r)
  | 'h' :: 't' :: 't' :: 'p' :: ':' :: '/' :: '/' :: r =>
    some (['h', 't', 't', 'p', ':', '/', '/'], r)
  | _ => none

/-- One anchored attempt of `re.search(r"http[s]?://(?:www\.)?([^./]+)", url)`:
the captured group, with the regex engine's backtracking on the optional
`www.` when `[^./]+` cannot match after it. -/
def matchDomainAt (l : List Char) : Option (List Char) :=
  match stripScheme l with
  | none => none
  | some (_, r) =>
    match r with
    | 'w' :: 'w' :: 'w' :: '.' :: r2 =>
      let cap := r2.takeWhile (fun c => !(c == '.' || c == '/'))
      if cap.isEmpty then
        let cap2 := r.takeWhile (fun c => !(c == '.' || c == '/'))
        if cap2.isEmpty then none else some cap2
      else some cap
    | _ =>
      let cap := r.takeWhile (fun c => !(c == '.' || c == '/'))
      if cap.isEmpty then none else some cap

/-- `re.search` of the main-domain regex: try every start position from the
left. -/
def searchDomain : List Char → Option (List Char)
  | [] => none
  | c :: rest =>
    match matchDomainAt (c :: rest) with
    | some cap => some cap
    | none => searchDomain rest

/-- One anchored attempt of the link pattern
`http[s]?://(?:www\.)?<domain><urlchar>*`: returns the matched characters and
the rest of the input, with greedy `www.` and greedy trailing class. -/
def matchLinkAt (domain l : List Char) : Option (List Char × List Char) :=
  match stripScheme l with
  | none => none
  | some (pre, r) =>
    match r with
    | 'w' :: 'w' :: 'w' :: '.' :: r2 =>
      if startsList domain r2 then
        let rest := r2.drop domain.length
        let tail := rest.takeWhile isUrlChar
        some (pre ++ ('w' :: 'w' :: 'w' :: '.' :: domain) ++ tail,
              rest.drop tail.length)
      else if startsList domain r then
        let rest := r.drop domain.length
        let tail := rest.takeWhile isUrlChar
        some (pre ++ domain ++ tail, rest.drop tail.length)
      else none
    | _ =>
      if startsList domain r then
        let rest := r.drop domain.length
        let tail := rest.takeWhile isUrlChar
        some (pre ++ domain ++ tail, rest.drop tail.length)
      else none

/-- `re.findall` of the link pattern: leftmost non-overlapping matches. Every
match consumes at least the scheme, so fuel equal to the input length is never
exhausted. -/
def findLinksAux (domain : List Char) : Nat → List Char → List (List Char)
  | 0, _ => []
  | _, [] => []
  | fuel + 1, c :: rest =>
    match matchLinkAt domain (c :: rest) with
    | some (m, r) => m :: findLinksAux domain fuel r
    | none => findLinksAux domain fuel rest

/-- All matches of the link pattern in `text`. -/
def findLinks (domain text : List Char) : List (List Char) :=
  findLinksAux domain text.length text

/-- The link-extraction block of `fetch_html_urls`: compute `main_domain` from
the current URL, `re.findall` the domain-anchored link pattern over the page
text, then keep the URLs containing `main_domain` as a substring. -/
def extractLinks (url text : String) : List String :=
  let mainDomain := (searchDomain url.data).getD []
  let httpUrls := findLinks mainDomain text.data
  (httpUrls.filter (fun u => containsSub mainDomain u)).map
    (fun l => String.mk l)

/-- Python `set` modelled as an insertion-ordered duplicate-free list:
add an element if absent. -/
def pyInsert (l : List String) (x : String) : List String :=
  if x ∈ l then l else l ++ [x]

/-- `set(domain_urls)`. -/
def pySetOf (l : List String) : List String := l.foldl pyInsert []

/-- `all_urls.update(nested_urls)`. -/
def pyUpdate (acc l : List String) : List String := l.foldl pyInsert acc

/-- The `for next_url in domain_urls` loop of `fetch_html_urls`: run the
recursive call (passed in as `child`, already fixed at depth+1) on each
pending URL, union the returned URL lists into `acc`, and thread the shared
state through. -/
def crawlChildren (child : String → CrawlState → List String × CrawlState) :
    List String → List String → CrawlState → List String × CrawlState
  | [], acc, st => (acc, st)
  | u :: rest, acc, st =>
    let p := child u st
    crawlChildren child rest (pyUpdate acc p.1) p.2

/-- Embedding of `fetch_html_urls(url, max_depth, _visited, _depth,
_html_contents)`. The extra fuel argument is `maxDepth - depth` at every
reachable call (the entry point passes `maxDepth` at depth 0 and each
recursive step decreases it as the depth increases), so the fuel-0 fallback
coincides with the source's `_depth >= max_depth` early return and is
otherwise dead. A fetch failure (network error, or `raise_for_status` on a
4xx/5xx response when `_depth == 0`) is caught and yields `([], contents)`
exactly as in the source. -/
def fetchAux (env : FetchEnv) (maxDepth : Nat) :
    Nat → String → Nat → CrawlState → List String × CrawlState
  | 0, _, _, st => ([], st)
  | fuel + 1, url, depth, st =>
    if url ∈ st.visited ∨ maxDepth ≤ depth then ([], st)
    else
      let st1 : CrawlState :=
        { visited := url :: st.visited,
          htmlContents := st.htmlContents,
          fetched := st.fetched ++ [(url, depth)] }
      match env.get url with
      | .error _ => ([], st1)
      | .ok resp =>
        if depth = 0 ∧ 400 ≤ resp.status ∧ resp.status < 600 then ([], st1)
        else
          let st2 : CrawlState :=
            { st1 with htmlContents := dictInsert st1.htmlContents url resp.text }
          let domainUrls := extractLinks url resp.text
          let child := fetchAux env maxDepth fuel
          let r := crawlChildren (fun u s => child u (depth + 1) s)
                     domainUrls (pySetOf domainUrls) st2
          (r.1 ++ [url], r.2)

/-- Top-level `fetch_html_urls(url, max_depth)` call, with fresh `_visited`
and `_html_contents` and `_depth = 0`. -/
def fetch_html_urls (env : FetchEnv) (url : String) (maxDepth : Nat) :
    List String × CrawlState :=
  fetchAux env maxDepth maxDepth url 0 ⟨[], [], []⟩

/-- The blocked extensions of the regex in `analyze_website`
(`docx?`, `xlsx?`, `pptx?` expand to both alternatives; `tar\.gz` is one
literal). -/
def blockedExts : List (List Char) :=
  ["pdf", "jpg", "jpeg", "png", "gif", "bmp", "svg", "doc", "docx", "xls",
   "xlsx", "ppt", "pptx", "zip", "rar", "tar.gz", "mp3", "mp4", "avi", "mov",
   "wmv", "flv", "mkv", "css"].map String.data

/-- After a literal `.`, does some blocked extension follow, terminated by `?`
or end of string (case-insensitively)? -/
def extMatchAt (l : List Char) : Bool :=
  blockedExts.any (fun e =>
    let low := l.map Char.toLower
    startsList e low &&
      (match low.drop e.length with
       | [] => true
       | c :: _ => c == Char.ofNat 63))

/-- `re.search` of the blocklist pattern
`\.(pdf|jpg|...|css)(\?|$)` with `re.IGNORECASE`: scan every position for a
dot followed by a blocked extension. -/
def blockedExtensionAux : List Char → Bool
  | [] => false
  | c :: rest => (c == '.' && extMatchAt rest) || blockedExtensionAux rest

/-- Does `re.search` of the blocked-extension pattern succeed on `s`? -/
def blockedExtension (s : String) : Bool := blockedExtensionAux s.data

/-- Python single-quote character, for `str()` of lists and dicts. -/
def sq : String := String.singleton (Char.ofNat 39)

/-- Python `repr` of a string (quoting only; the URLs and page texts involved
contain no quotes to escape). -/
def pyRepr (s : String) : String := sq ++ s ++ sq

/-- Python `str()` of a list of strings. -/
def pyStrList (l : List String) : String :=
  "[" ++ String.intercalate ", " (l.map pyRepr) ++ "]"

/-- Python `str()` of a dict of strings. -/
def pyStrDict (d : List (String × String)) : String :=
  "\x7b" ++
    String.intercalate ", " (d.map (fun p => pyRepr p.1 ++ ": " ++ pyRepr p.2))
    ++ "\x7d"

/-- The hardcoded `mock_profile` returned by `analyze_website`. -/
def mockProfile : Profile :=
  { company_name := .s "Example Company",
    service_lines := .l ["Web Development", "Mobile App Development",
                         "Cloud Services"],
    company_description :=
      .s "A leading technology company providing innovative solutions for businesses worldwide.",
    tier1_keywords := .l ["technology", "innovation", "solutions", "business",
                          "software"],
    tier2_keywords := .l ["AI", "machine learning", "automation"],
    emails := .l ["contact@example.com"],
    point_of_contact := .s "John Doe" }

/-- Ghost trace of one `analyze_website` call: the crawl's fetch trace, and
the `str(url)` values that survive the blocklist filter and are passed to
`convert_document_to_markdown`. -/
structure AWTrace where
  crawlFetched : List (String × Nat)
  converted : List String
  deriving DecidableEq

/-- Embedding of `analyze_website(website_url)`. `fetch_html_urls` returns a
pair, and the `for url in fetch_html_urls(website_url)` loop iterates over
that pair, so its two items are the URL list and the contents dict; each item
is passed through `str()` before the blocklist regex and before conversion.
Conversion failures are caught and logged. The function unconditionally
returns the hardcoded mock profile. -/
def analyze_website (env : FetchEnv) (conv : String → Except Unit String)
    (website_url : String) : Profile × AWTrace :=
  let cr := fetch_html_urls env website_url 2
  let tupleItems : List String := [pyStrList cr.1, pyStrDict cr.2.htmlContents]
  let all_domain_urls :=
    tupleItems.filter (fun s => !(blockedExtension s))
  let convertedContents := all_domain_urls.foldl
    (fun (acc : List (String × String)) u =>
      match conv u with
      | .ok md => dictInsert acc u md
      | .error _ => acc) []
  let _all_markdown_content :=
    String.intercalate "\n\n" (convertedContents.map Prod.snd)
  (mockProfile, ⟨cr.2.fetched, all_domain_urls⟩)

/-- Evolution invariant of the crawl state across one (sub)call entered at
depth at least `lo` with bound `D`: the visited set only grows, and the fetch
trace is extended by pairwise-distinct URLs that were unvisited before, are
visited afterwards, and were fetched at a depth in `[lo, D)`. -/
def StepOK (lo D : Nat) (st st' : CrawlState) : Prop :=
  (∀ u, u ∈ st.visited → u ∈ st'.visited) ∧
  ∃ new, st'.fetched = st.fetched ++ new ∧
    (∀ p ∈ new, p.1 ∉ st.visited ∧ p.1 ∈ st'.visited ∧ lo ≤ p.2 ∧ p.2 < D) ∧
    (new.map Prod.fst).Nodup

end Service

/-! ## Concrete environments for counterexamples and witnesses -/

/-- A site whose only page is the seed, which links to itself. -/
def envC2 : Service.FetchEnv :=
  ⟨fun u => if u = "http://a.com" then .ok ⟨200, "http://a.com"⟩ else .error ()⟩

/-- A site whose seed page links to a PDF document on the same domain. -/
def envC3 : Service.FetchEnv :=
  ⟨fun u =>
    if u = "http://a.com" then .ok ⟨200, "see http://a.com/doc.pdf here"⟩
    else .ok ⟨200, ""⟩⟩

/-- A network on which every fetch returns HTTP 500. -/
def envC1 : Service.FetchEnv := ⟨fun _ => .ok ⟨500, "Internal Server Error"⟩⟩

/-- A document converter that always raises. -/
def convC1 : String → Except Unit String := fun _ => .error ()

/-- A run in which `convert_html_to_markdown` returns `None` while every
extraction call would have succeeded. -/
def envC5 : AiAnalyzer.GenEnv :=
  ⟨.ok none, .ok "Acme", .ok "a, b", .ok "desc", .ok "k1", .ok "e@x.com",
   .ok "Bob", .ok "t2"⟩

/-- A run with successful conversion where the service-lines extraction
returns the raw string with spaces after the commas. -/
def envC6 : AiAnalyzer.GenEnv :=
  ⟨.ok (some "md"), .ok "Acme", .ok "a, b, c", .ok "desc", .ok "k1",
   .ok "e@x.com", .ok "Bob", .ok "t2"⟩

/-- A run with successful conversion where the tier-1 extraction returns
empty text, so tier-1 settles to the sentinel. -/
def envC7 : AiAnalyzer.GenEnv :=
  ⟨.ok (some "md"), .ok "Acme", .ok "svc", .ok "desc", .ok "", .ok "e@x.com",
   .ok "Bob", .ok "t2"⟩

/-- A run where exactly two independent subtasks fail: the company-name call
raises and the tier-1 call returns empty text; the other four succeed. -/
def envC8 : AiAnalyzer.GenEnv :=
  ⟨.ok (some "md"), .error "boom", .ok "a, b", .ok "desc", .ok "",
   .ok "e@x.com", .ok "Bob", .ok "t2"⟩

/-! ## Theorems -/

theorem pySplitAux_ne_nil (l acc : List Char) : pySplitAux l acc ≠ [] := by
  induction l generalizing acc with
  | nil => simp [pySplitAux]
  | cons c rest ih =>
    simp only [pySplitAux]
    split
    · simp
    · exact ih _

theorem pySplitAux_single (l acc m : List Char) (h : pySplitAux l acc = [m]) :
    m = acc.reverse ++ l := by
  induction l generalizing acc with
  | nil =>
    simp only [pySplitAux, List.cons.injEq, and_true] at h
    simp [h.symm]
  | cons c rest ih =>
    by_cases hc : c = ','
    · exfalso
      simp only [pySplitAux, if_pos hc] at h
      have h2 := congrArg List.tail h
      simp at h2
      exact pySplitAux_ne_nil rest [] h2
    · simp only [pySplitAux, if_neg hc] at h
      have := ih (c :: acc) h
      simpa using this

theorem pySplit_single (v w : String) (h : pySplit v = [w]) : v = w := by
  unfold pySplit at h
  rcases e : pySplitAux v.data [] with _ | ⟨m, rest⟩
  · exact absurd e (pySplitAux_ne_nil _ _)
  · rw [e] at h
    simp only [List.map_cons, List.cons.injEq] at h
    have hrest : rest = [] := List.map_eq_nil_iff.mp h.2
    rw [hrest] at e
    have hm : m = v.data := by simpa using pySplitAux_single v.data [] m e
    have : String.mk v.data = w := by rw [← hm]; exact h.1
    rw [← this]

theorem pySplit_ne_unknown (v : String) (h : v ≠ "Unknown") :
    pySplit v ≠ ["Unknown"] :=
  fun hc => h (pySplit_single v "Unknown" hc)

namespace AiAnalyzer

theorem settle_fail (r : Except String String) (h : respFails r = true) :
    settleResp r = "Unknown" := by
  cases r with
  | error e => rfl
  | ok t =>
    have : t = "" := by simpa [respFails] using h
    simp [settleResp, this]

theorem settle_ok (v : String) (hv : v ≠ "") :
    settleResp (Except.ok v) = v := by
  simp [settleResp, hv]

theorem listField_unknown : listField "Unknown" = ["Unknown"] := by
  simp [listField]

theorem listField_ok (v : String) (hv : v ≠ "") (hu : v ≠ "Unknown") :
    listField v = pySplit v := by
  simp [listField, hv, hu]

theorem get_company_profile_ok (env : GenEnv) (md : String)
    (h : env.convertResult = .ok (some md)) :
    (get_company_profile env).1 =
      { company_name := .s (settleResp env.nameResp),
        service_lines := .l (listField (settleResp env.serviceResp)),
        company_description := .s (settleResp env.descResp),
        tier1_keywords := .l (listField (settleResp env.tier1Resp)),
        tier2_keywords := .l (listField (settleResp env.tier2Resp)),
        emails := .l (listField (settleResp env.emailsResp)),
        point_of_contact := .s (settleResp env.pocResp) } ∧
    (get_company_profile env).2 =
      [ .settled 0 (settleResp env.nameResp),
        .settled 1 (settleResp env.serviceResp),
        .settled 2 (settleResp env.descResp),
        .settled 3 (settleResp env.tier1Resp),
        .settled 4 (settleResp env.emailsResp),
        .settled 5 (settleResp env.pocResp),
        .invokeTier2 (settleResp env.tier1Resp) ] := by
  rw [get_company_profile, h]
  exact ⟨rfl, rfl⟩

theorem scalar_field_spec (r : Except String String) :
    (respFails r = true → PyField.s (settleResp r) = PyField.s "Unknown") ∧
    ∀ v, r = .ok v → v ≠ "" → v ≠ "Unknown" →
      PyField.s (settleResp r) ≠ PyField.s "Unknown" ∧
      PyField.s (settleResp r) = PyField.s v := by
  constructor
  · intro h
    rw [settle_fail r h]
  · rintro v rfl hv hu
    rw [settle_ok v hv]
    refine ⟨?_, rfl⟩
    intro hcon
    apply hu
    injection hcon

theorem list_field_spec (r : Except String String) :
    (respFails r = true →
      PyField.l (listField (settleResp r)) = PyField.l ["Unknown"]) ∧
    ∀ v, r = .ok v → v ≠ "" → v ≠ "Unknown" →
      PyField.l (listField (settleResp r)) ≠ PyField.l ["Unknown"] ∧
      PyField.l (listField (settleResp r)) = PyField.l (pySplit v) := by
  constructor
  · intro h
    rw [settle_fail r h, listField_unknown]
  · rintro v rfl hv hu
    rw [settle_ok v hv, listField_ok v hv hu]
    refine ⟨?_, rfl⟩
    intro hcon
    apply pySplit_ne_unknown v hu
    injection hcon


end AiAnalyzer

namespace Service

theorem stepOK_refl (lo D : Nat) (st : CrawlState) : StepOK lo D st st :=
  ⟨fun _ h => h, [], by simp, by simp, by simp⟩

theorem stepOK_mono {lo' lo D : Nat} (h : lo' ≤ lo) {s s' : CrawlState}
    (hs : StepOK lo D s s') : StepOK lo' D s s' := by
  obtain ⟨hv, new, hf, hp, hn⟩ := hs
  exact ⟨hv, new, hf,
    fun p hp2 => ⟨(hp p hp2).1, (hp p hp2).2.1,
      le_trans h (hp p hp2).2.2.1, (hp p hp2).2.2.2⟩, hn⟩

theorem stepOK_trans {lo D : Nat} {s1 s2 s3 : CrawlState}
    (h1 : StepOK lo D s1 s2) (h2 : StepOK lo D s2 s3) : StepOK lo D s1 s3 := by
  obtain ⟨v1, n1, hf1, hp1, hn1⟩ := h1
  obtain ⟨v2, n2, hf2, hp2, hn2⟩ := h2
  refine ⟨fun u hu => v2 u (v1 u hu), n1 ++ n2,
    by rw [hf2, hf1, List.append_assoc], ?_, ?_⟩
  · intro p hp
    rcases List.mem_append.mp hp with h | h
    · obtain ⟨ha, hb, hc, hd⟩ := hp1 p h
      exact ⟨ha, v2 _ hb, hc, hd⟩
    · obtain ⟨ha, hb, hc, hd⟩ := hp2 p h
      exact ⟨fun hmem => ha (v1 _ hmem), hb, hc, hd⟩
  · rw [List.map_append]
    refine List.Nodup.append hn1 hn2 ?_
    intro a ha1 ha2
    obtain ⟨p, hp, hpa⟩ := List.mem_map.mp ha1
    obtain ⟨q, hq, hqa⟩ := List.mem_map.mp ha2
    have hin : p.1 ∈ s2.visited := (hp1 p hp).2.1
    have hout : q.1 ∉ s2.visited := (hp2 q hq).1
    rw [hpa] at hin
    rw [hqa] at hout
    exact hout hin

theorem stepOK_fetched_mem {lo D : Nat} {s s' : CrawlState}
    (h : StepOK lo D s s') {p : String × Nat} (hp : p ∈ s.fetched) :
    p ∈ s'.fetched := by
  obtain ⟨_, new, hf, _, _⟩ := h
  rw [hf]
  exact List.mem_append_left _ hp

/-- Entering the fetch of an admitted URL: the state after `_visited.add(url)`
and the `requests.get` call satisfies the step invariant, whatever happens to
the contents dict. -/
theorem stepOK_fetchStep {D : Nat} (st : CrawlState) (url : String)
    (depth : Nat) (hc : List (String × String)) (hnv : url ∉ st.visited)
    (hdD : depth < D) :
    StepOK depth D st ⟨url :: st.visited, hc, st.fetched ++ [(url, depth)]⟩ := by
  refine ⟨fun u hu => List.mem_cons_of_mem _ hu, [(url, depth)], rfl, ?_, by simp⟩
  intro p hp
  rw [List.mem_singleton] at hp
  subst hp
  exact ⟨hnv, List.mem_cons_self _ _, le_refl _, hdD⟩

theorem crawlChildren_stepOK {lo D : Nat}
    (child : String → CrawlState → List String × CrawlState)
    (hchild : ∀ u s, StepOK lo D s (child u s).2) :
    ∀ (l acc : List String) (st : CrawlState),
      StepOK lo D st (crawlChildren child l acc st).2 := by
  intro l
  induction l with
  | nil => intro acc st; exact stepOK_refl _ _ _
  | cons u rest ih =>
    intro acc st
    exact stepOK_trans (hchild u st) (ih _ _)

theorem fetchAux_succ_guard {env : FetchEnv} {D fuel : Nat} {url : String}
    {depth : Nat} {st : CrawlState} (h : url ∈ st.visited ∨ D ≤ depth) :
    fetchAux env D (fuel + 1) url depth st = ([], st) := by
  simp only [fetchAux, if_pos h]

theorem fetchAux_succ_error {env : FetchEnv} {D fuel : Nat} {url : String}
    {depth : Nat} {st : CrawlState} {e : Unit}
    (h : ¬(url ∈ st.visited ∨ D ≤ depth)) (hget : env.get url = .error e) :
    fetchAux env D (fuel + 1) url depth st =
      ([], ⟨url :: st.visited, st.htmlContents, st.fetched ++ [(url, depth)]⟩) := by
  simp only [fetchAux, if_neg h, hget]

theorem fetchAux_succ_raise {env : FetchEnv} {D fuel : Nat} {url : String}
    {depth : Nat} {st : CrawlState} {resp : Response}
    (h : ¬(url ∈ st.visited ∨ D ≤ depth)) (hget : env.get url = .ok resp)
    (hraise : depth = 0 ∧ 400 ≤ resp.status ∧ resp.status < 600) :
    fetchAux env D (fuel + 1) url depth st =
      ([], ⟨url :: st.visited, st.htmlContents, st.fetched ++ [(url, depth)]⟩) := by
  simp only [fetchAux, if_neg h, hget, if_pos hraise]

theorem fetchAux_succ_ok {env : FetchEnv} {D fuel : Nat} {url : String}
    {depth : Nat} {st : CrawlState} {resp : Response}
    (h : ¬(url ∈ st.visited ∨ D ≤ depth)) (hget : env.get url = .ok resp)
    (hraise : ¬(depth = 0 ∧ 400 ≤ resp.status ∧ resp.status < 600)) :
    fetchAux env D (fuel + 1) url depth st =
      ((crawlChildren (fun u s => fetchAux env D fuel u (depth + 1) s)
          (extractLinks url resp.text) (pySetOf (extractLinks url resp.text))
          ⟨url :: st.visited, dictInsert st.htmlContents url resp.text,
           st.fetched ++ [(url, depth)]⟩).1 ++ [url],
       (crawlChildren (fun u s => fetchAux env D fuel u (depth + 1) s)
          (extractLinks url resp.text) (pySetOf (extractLinks url resp.text))
          ⟨url :: st.visited, dictInsert st.htmlContents url resp.text,
           st.fetched ++ [(url, depth)]⟩).2) := by
  simp only [fetchAux, if_neg h, hget, if_neg hraise]

theorem fetchAux_stepOK (env : FetchEnv) (D : Nat) :
    ∀ (fuel : Nat) (url : String) (depth : Nat) (st : CrawlState),
      StepOK depth D st (fetchAux env D fuel url depth st).2 := by
  intro fuel
  induction fuel with
  | zero => intro url depth st; exact stepOK_refl _ _ _
  | succ fuel ih =>
    intro url depth st
    by_cases hg : url ∈ st.visited ∨ D ≤ depth
    · rw [fetchAux_succ_guard hg]
      exact stepOK_refl _ _ _
    · have hnv : url ∉ st.visited := fun hmem => hg (Or.inl hmem)
      have hdD : depth < D := by
        by_contra hcon
        exact hg (Or.inr (by omega))
      cases hget : env.get url with
      | error e =>
        rw [fetchAux_succ_error hg hget]
        exact stepOK_fetchStep st url depth _ hnv hdD
      | ok resp =>
        by_cases hr : depth = 0 ∧ 400 ≤ resp.status ∧ resp.status < 600
        · rw [fetchAux_succ_raise hg hget hr]
          exact stepOK_fetchStep st url depth _ hnv hdD
        · rw [fetchAux_succ_ok hg hget hr]
          refine stepOK_trans
            (stepOK_fetchStep st url depth
              (dictInsert st.htmlContents url resp.text) hnv hdD) ?_
          exact stepOK_mono (Nat.le_succ depth)
            (crawlChildren_stepOK _
              (fun u s => stepOK_mono (le_refl _) (ih u (depth + 1) s)) _ _ _)

/-- An admitted URL (unvisited, within depth) is always fetched: its
`(url, depth)` pair enters the fetch trace. -/
theorem fetchAux_fetched_mem (env : FetchEnv) (D fuel : Nat) (url : String)
    (depth : Nat) (st : CrawlState) (hnv : url ∉ st.visited) (hdD : depth < D) :
    (url, depth) ∈ (fetchAux env D (fuel + 1) url depth st).2.fetched := by
  have hg : ¬(url ∈ st.visited ∨ D ≤ depth) := by
    rintro (hmem | hle)
    · exact hnv hmem
    · omega
  cases hget : env.get url with
  | error e =>
    rw [fetchAux_succ_error hg hget]
    simp
  | ok resp =>
    by_cases hr : depth = 0 ∧ 400 ≤ resp.status ∧ resp.status < 600
    · rw [fetchAux_succ_raise hg hget hr]
      simp
    · rw [fetchAux_succ_ok hg hget hr]
      exact stepOK_fetched_mem
        (crawlChildren_stepOK (fun u s => fetchAux env D fuel u (depth + 1) s)
          (fun u s => fetchAux_stepOK env D fuel u (depth + 1) s) _ _ _)
        (by simp)

theorem pyInsert_nodup {l : List String} (h : l.Nodup) (x : String) :
    (pyInsert l x).Nodup := by
  unfold pyInsert
  split
  · exact h
  · rename_i hx
    rw [List.nodup_append]
    refine ⟨h, List.nodup_singleton x, ?_⟩
    intro a ha hax
    rw [List.mem_singleton] at hax
    rw [hax] at ha
    exact hx ha

theorem pyUpdate_nodup : ∀ (l acc : List String), acc.Nodup →
    (pyUpdate acc l).Nodup
  | [], _, h => h
  | x :: rest, acc, h => pyUpdate_nodup rest (pyInsert acc x) (pyInsert_nodup h x)

theorem pySetOf_nodup (l : List String) : (pySetOf l).Nodup :=
  pyUpdate_nodup l [] List.nodup_nil

theorem crawlChildren_fst_nodup
    (child : String → CrawlState → List String × CrawlState) :
    ∀ (l acc : List String) (st : CrawlState), acc.Nodup →
      (crawlChildren child l acc st).1.Nodup
  | [], _, _, h => h
  | u :: rest, acc, st, h =>
    crawlChildren_fst_nodup child rest (pyUpdate acc (child u st).1)
      (child u st).2 (pyUpdate_nodup (child u st).1 acc h)


/-- When the seed fetch succeeds without `raise_for_status` firing and the
depth bound is positive, the top-level crawl result is a duplicate-free list
followed by one appended copy of the seed. -/
theorem fetch_html_urls_ok (env : FetchEnv) (url : String) (d : Nat)
    (r : Response) (hget : env.get url = .ok r)
    (hok : ¬(400 ≤ r.status ∧ r.status < 600)) :
    ∃ xs : List String,
      (fetch_html_urls env url (d + 1)).1 = xs ++ [url] ∧ xs.Nodup := by
  have hg : ¬(url ∈ (⟨[], [], []⟩ : CrawlState).visited ∨ d + 1 ≤ 0) := by
    simp
  have hraise : ¬((0 : Nat) = 0 ∧ 400 ≤ r.status ∧ r.status < 600) := by
    intro hcon
    exact hok hcon.2
  rw [fetch_html_urls, fetchAux_succ_ok hg hget hraise]
  exact ⟨_, rfl, crawlChildren_fst_nodup _ _ _ _ (pySetOf_nodup _)⟩


end Service

/-! ## Claim theorems -/

/-- Claim C4: throughout any single crawl (one top-level `fetch_html_urls`
call with its shared visited set), each URL is fetched at most once: the
URLs in the ghost fetch trace are pairwise distinct. -/
theorem C4_fetch_at_most_once (env : Service.FetchEnv) (url : String)
    (D : Nat) :
    (((Service.fetch_html_urls env url D).2.fetched).map Prod.fst).Nodup := by
  obtain ⟨-, new, hf, -, hn⟩ :=
    Service.fetchAux_stepOK env D D url 0 ⟨[], [], []⟩
  rw [Service.fetch_html_urls, hf]
  simpa using hn

/-- Claim C9: no URL is fetched at recursion depth `≥ D` (every entry of the
fetch trace carries a depth `< D`), and every recursive call entered at depth
`≥ D` returns immediately with the state unchanged. -/
theorem C9_depth_bound (env : Service.FetchEnv) (url : String) (D : Nat) :
    (∀ p ∈ (Service.fetch_html_urls env url D).2.fetched, p.2 < D) ∧
    (∀ (fuel : Nat) (u : String) (d : Nat) (st : Service.CrawlState),
      D ≤ d → Service.fetchAux env D fuel u d st = ([], st)) := by
  constructor
  · intro p hp
    obtain ⟨-, new, hf, hprop, -⟩ :=
      Service.fetchAux_stepOK env D D url 0 ⟨[], [], []⟩
    rw [Service.fetch_html_urls, hf] at hp
    simp only [List.nil_append] at hp
    exact (hprop p hp).2.2.2
  · intro fuel u d st hd
    cases fuel with
    | zero => rfl
    | succ f => exact Service.fetchAux_succ_guard (Or.inr hd)

/-- Claim C9 witness: at a concrete crawl of depth bound 2 the seed's trace
entry has depth `0 < 2`, and a call entered at depth 7 returns unchanged. -/
theorem C9_witness :
    (("http://a.com", 0) : String × Nat).2 < 2 ∧
    Service.fetchAux envC2 2 5 "http://b.com" 7 ⟨[], [], []⟩ =
      ([], ⟨[], [], []⟩) := by
  refine ⟨(C9_depth_bound envC2 "http://a.com" 2).1 ("http://a.com", 0)
    (by decide), (C9_depth_bound envC2 "http://a.com" 2).2 5 "http://b.com" 7
    ⟨[], [], []⟩ (by decide)⟩

/-- Claim C2 counterexample: with depth bound 0 the crawl result is empty and
does not contain the seed, and with a seed page that links to itself the seed
URL occurs twice in the result. -/
theorem C2_counterexample :
    ("http://a.com" ∉ (Service.fetch_html_urls envC2 "http://a.com" 0).1) ∧
    (Service.fetch_html_urls envC2 "http://a.com" 2).1.count "http://a.com"
      = 2 := by
  decide

/-- Claim C2 (amended): when the depth bound is at least 1 and the seed fetch
succeeds (no network error, no `raise_for_status`), the crawl result contains
the seed; every URL other than the seed occurs at most once, and the seed at
most twice (it is appended once unconditionally and may also occur among the
deduplicated discovered URLs). -/
theorem C2_amended_seed_and_count (env : Service.FetchEnv) (url : String)
    (D : Nat) (hD : 1 ≤ D) (r : Service.Response)
    (hget : env.get url = .ok r)
    (hok : ¬(400 ≤ r.status ∧ r.status < 600)) :
    url ∈ (Service.fetch_html_urls env url D).1 ∧
    ∀ v : String, (Service.fetch_html_urls env url D).1.count v ≤
      if v = url then 2 else 1 := by
  obtain ⟨d, rfl⟩ : ∃ d, D = d + 1 := ⟨D - 1, by omega⟩
  obtain ⟨xs, hxs, hnd⟩ := Service.fetch_html_urls_ok env url d r hget hok
  rw [hxs]
  refine ⟨by simp, ?_⟩
  intro v
  rw [List.count_append]
  have h1 : xs.count v ≤ 1 := List.nodup_iff_count_le_one.mp hnd v
  by_cases hv : v = url
  · have h2 : List.count v [url] = 1 := by
      simp [List.count_cons, hv]
    rw [if_pos hv]
    omega
  · have h2 : List.count v [url] = 0 := by
      simp [List.count_cons, hv]
    rw [if_neg hv]
    omega

/-- Claim C2 witness: the amended statement applied to the self-linking
one-page site at depth bound 2. -/
theorem C2_witness :
    "http://a.com" ∈ (Service.fetch_html_urls envC2 "http://a.com" 2).1 ∧
    (Service.fetch_html_urls envC2 "http://a.com" 2).1.count "http://b.com"
      ≤ 1 := by
  have h := C2_amended_seed_and_count envC2 "http://a.com" 2 (by decide)
    ⟨200, "http://a.com"⟩ rfl (by decide)
  refine ⟨h.1, ?_⟩
  have h2 := h.2 "http://b.com"
  simpa using h2

/-- Claim C3 counterexample: a URL whose path matches the blocked-extension
pattern (`.pdf`) and is linked from the seed page is nevertheless fetched by
the crawl (it appears in the `requests.get` trace at depth 1). -/
theorem C3_counterexample :
    Service.blockedExtension "http://a.com/doc.pdf" = true ∧
    ("http://a.com/doc.pdf", 1) ∈
      (Service.fetch_html_urls envC3 "http://a.com" 2).2.fetched := by
  decide

/-- Claim C3 (amended): the crawl applies no extension filter before
fetching: with the default depth bound 2, the first in-domain link extracted
from a successfully fetched seed page is fetched at depth 1, whether or not
it matches the blocked-extension pattern; the blocklist regex is applied only
in `analyze_website`, after `fetch_html_urls` has returned. -/
theorem C3_amended_blocked_urls_fetched (env : Service.FetchEnv)
    (url : String) (r : Service.Response) (u : String) (rest : List String)
    (hget : env.get url = .ok r)
    (hok : ¬(400 ≤ r.status ∧ r.status < 600))
    (hlinks : Service.extractLinks url r.text = u :: rest) (hne : u ≠ url) :
    (u, 1) ∈ (Service.fetch_html_urls env url 2).2.fetched := by
  have hg : ¬(url ∈ (⟨[], [], []⟩ : Service.CrawlState).visited ∨
      (2 : Nat) ≤ 0) := by simp
  have hraise : ¬((0 : Nat) = 0 ∧ 400 ≤ r.status ∧ r.status < 600) := by
    intro hcon
    exact hok hcon.2
  rw [Service.fetch_html_urls,
    Service.fetchAux_succ_ok hg hget hraise, hlinks]
  simp only [Service.crawlChildren]
  have hmem : (u, 1) ∈
      ((Service.fetchAux env 2 1 u (0 + 1)
        ⟨url :: (⟨[], [], []⟩ : Service.CrawlState).visited,
         Service.dictInsert (⟨[], [], []⟩ : Service.CrawlState).htmlContents
           url r.text,
         (⟨[], [], []⟩ : Service.CrawlState).fetched ++ [(url, 0)]⟩).2).fetched := by
    apply Service.fetchAux_fetched_mem
    · simp [hne]
    · omega
  exact Service.stepOK_fetched_mem
    (Service.crawlChildren_stepOK (fun v s => Service.fetchAux env 2 1 v (0 + 1) s)
      (fun v s => Service.fetchAux_stepOK env 2 1 v (0 + 1) s) rest _ _) hmem

/-- Claim C3 witness: the amended statement applied to the concrete site
whose seed links to `http://a.com/doc.pdf`, a blocked-extension URL. -/
theorem C3_witness :
    Service.blockedExtension "http://a.com/doc.pdf" = true ∧
    ("http://a.com/doc.pdf", 1) ∈
      (Service.fetch_html_urls envC3 "http://a.com" 2).2.fetched ∧
    ("http://a.com/x.html", 1) ∉
      (Service.fetch_html_urls envC3 "http://a.com" 2).2.fetched := by
  refine ⟨by decide, ?_, by decide⟩
  exact C3_amended_blocked_urls_fetched envC3 "http://a.com"
    ⟨200, "see http://a.com/doc.pdf here"⟩ "http://a.com/doc.pdf" []
    rfl (by decide) (by decide) (by decide)

/-- Claim C1 counterexample: when every response is HTTP 500 (so the seed
fetch fails `raise_for_status`) and the document converter always raises,
`analyze_website` still returns a complete profile — the hardcoded mock — so
no error is surfaced and a profile is returned. -/
theorem C1_counterexample :
    (Service.analyze_website envC1 convC1 "http://a.com").1 =
      Service.mockProfile ∧
    (Service.fetch_html_urls envC1 "http://a.com" 2).1 = [] := by
  exact ⟨rfl, by decide⟩

/-- Claim C1 (amended): if the seed fetch fails (a network error, or a
4xx/5xx status making `raise_for_status` raise at depth 0), the exception is
caught inside `fetch_html_urls`, which returns an empty URL list and an empty
contents dict; `analyze_website` does not fail and still returns the mock
profile, so no error is surfaced to the caller. -/
theorem C1_seed_failure_swallowed (env : Service.FetchEnv)
    (conv : String → Except Unit String) (url : String)
    (hfail : env.get url = .error () ∨
      ∃ r : Service.Response,
        env.get url = .ok r ∧ 400 ≤ r.status ∧ r.status < 600) :
    (Service.fetch_html_urls env url 2).1 = [] ∧
    (Service.fetch_html_urls env url 2).2.htmlContents = [] ∧
    (Service.analyze_website env conv url).1 = Service.mockProfile := by
  have hg : ¬(url ∈ (⟨[], [], []⟩ : Service.CrawlState).visited ∨
      (2 : Nat) ≤ 0) := by simp
  refine ⟨?_, ?_, rfl⟩ <;>
  · rcases hfail with herr | ⟨r, hr, h4, h6⟩
    · rw [Service.fetch_html_urls,
        Service.fetchAux_succ_error hg herr]
    · rw [Service.fetch_html_urls,
        Service.fetchAux_succ_raise hg hr ⟨rfl, h4, h6⟩]

/-- Claim C1 witness: the amended statement applied to the all-500 network. -/
theorem C1_witness :
    (Service.fetch_html_urls envC1 "http://a.com" 2).1 = [] ∧
    (Service.fetch_html_urls envC1 "http://a.com" 2).2.htmlContents = [] ∧
    (Service.analyze_website envC1 convC1 "http://a.com").1 =
      Service.mockProfile :=
  C1_seed_failure_swallowed envC1 convC1 "http://a.com"
    (Or.inr ⟨⟨500, "Internal Server Error"⟩, rfl, by decide, by decide⟩)

/-- Claim C10: `analyze_website` returns the identical fixed profile for any
two inputs, whatever the network, the converter or the URL do: the result is
the hardcoded mock profile with company name "Example Company". -/
theorem C10_constant_profile (env env2 : Service.FetchEnv)
    (conv conv2 : String → Except Unit String) (url url2 : String) :
    (Service.analyze_website env conv url).1 =
      (Service.analyze_website env2 conv2 url2).1 ∧
    (Service.analyze_website env conv url).1 = Service.mockProfile ∧
    Service.mockProfile.company_name = PyField.s "Example Company" ∧
    Service.mockProfile.emails = PyField.l ["contact@example.com"] ∧
    Service.mockProfile.point_of_contact = PyField.s "John Doe" :=
  ⟨rfl, rfl, rfl, rfl, rfl⟩

/-- Claim C5 counterexample: when `convert_html_to_markdown` returns `None`,
the returned profile's `service_lines` field is the *string* "Unknown", not
the one-element list `["Unknown"]` that the claim requires for sequence
fields. -/
theorem C5_counterexample :
    (AiAnalyzer.get_company_profile envC5).1.service_lines =
      PyField.s "Unknown" ∧
    (AiAnalyzer.get_company_profile envC5).1.service_lines ≠
      PyField.l ["Unknown"] := by
  decide

/-- Claim C5 (amended): if normalization yields no text (`None`), the profile
short-circuits with *every* field — sequence fields included — set to the
scalar string "Unknown", and no extraction subtask is invoked (the event
trace is empty). -/
theorem C5_amended_sentinel_strings (env : AiAnalyzer.GenEnv)
    (h : env.convertResult = .ok none) :
    (AiAnalyzer.get_company_profile env).1 =
      { company_name := .s "Unknown", service_lines := .s "Unknown",
        company_description := .s "Unknown", tier1_keywords := .s "Unknown",
        tier2_keywords := .s "Unknown", emails := .s "Unknown",
        point_of_contact := .s "Unknown" } ∧
    (AiAnalyzer.get_company_profile env).2 = [] := by
  rw [AiAnalyzer.get_company_profile, h]
  exact ⟨rfl, rfl⟩

/-- Claim C5 witness: the amended statement at a concrete environment whose
conversion returns `None`. -/
theorem C5_witness :
    (AiAnalyzer.get_company_profile envC5).1 =
      { company_name := .s "Unknown", service_lines := .s "Unknown",
        company_description := .s "Unknown", tier1_keywords := .s "Unknown",
        tier2_keywords := .s "Unknown", emails := .s "Unknown",
        point_of_contact := .s "Unknown" } ∧
    (AiAnalyzer.get_company_profile envC5).2 = [] :=
  C5_amended_sentinel_strings envC5 rfl

/-- Claim C6 counterexample: the raw extraction string "a, b, c" yields
`["a", " b", " c"]` — the tokens keep their surrounding whitespace — and not
the trimmed `["a", "b", "c"]` that the claim requires. -/
theorem C6_counterexample :
    (AiAnalyzer.get_company_profile envC6).1.service_lines =
      PyField.l ["a", " b", " c"] ∧
    (AiAnalyzer.get_company_profile envC6).1.service_lines ≠
      PyField.l ["a", "b", "c"] := by
  decide

/-- Claim C6 (amended): each list-valued field is the plain comma-split of
its settled raw string, with no trimming and with empty tokens kept (so
"a, b, c" yields `["a", " b", " c"]`), order preserved; a sentinel (or empty)
raw value yields the one-element list `["Unknown"]`. -/
theorem C6_amended_plain_split (env : AiAnalyzer.GenEnv) (md : String)
    (h : env.convertResult = .ok (some md)) :
    ((AiAnalyzer.get_company_profile env).1.service_lines =
      PyField.l (AiAnalyzer.listField (AiAnalyzer.settleResp env.serviceResp)) ∧
     (AiAnalyzer.get_company_profile env).1.tier1_keywords =
      PyField.l (AiAnalyzer.listField (AiAnalyzer.settleResp env.tier1Resp)) ∧
     (AiAnalyzer.get_company_profile env).1.tier2_keywords =
      PyField.l (AiAnalyzer.listField (AiAnalyzer.settleResp env.tier2Resp)) ∧
     (AiAnalyzer.get_company_profile env).1.emails =
      PyField.l (AiAnalyzer.listField (AiAnalyzer.settleResp env.emailsResp))) ∧
    (∀ v : String, v ≠ "" → v ≠ "Unknown" →
      AiAnalyzer.listField v = pySplit v) ∧
    AiAnalyzer.listField "Unknown" = ["Unknown"] ∧
    pySplit "a, b, c" = ["a", " b", " c"] := by
  obtain ⟨hp, -⟩ := AiAnalyzer.get_company_profile_ok env md h
  refine ⟨?_, fun v hv hu => AiAnalyzer.listField_ok v hv hu,
    AiAnalyzer.listField_unknown, by decide⟩
  rw [hp]
  exact ⟨rfl, rfl, rfl, rfl⟩

/-- Claim C6 witness: the amended statement at a concrete run whose
service-lines extraction returns "a, b, c". -/
theorem C6_witness :
    (AiAnalyzer.get_company_profile envC6).1.service_lines =
      PyField.l (AiAnalyzer.listField (AiAnalyzer.settleResp envC6.serviceResp)) ∧
    AiAnalyzer.listField "Unknown" = ["Unknown"] ∧
    pySplit "a, b, c" = ["a", " b", " c"] := by
  have h := C6_amended_plain_split envC6 "md" rfl
  exact ⟨h.1.1, h.2.2.1, h.2.2.2⟩

/-- Claim C7: whenever extraction runs (conversion returned text), the trace
ends with the single tier-2 invocation: every one of the six independent
subtasks' settlement events strictly precedes it, the settled tier-1 string
is the one embedded in the tier-2 instruction, and the invocation happens
even when tier-1 settled to the sentinel (the statement has no hypothesis on
`tier1Resp`). -/
theorem C7_tier2_after_barrier (env : AiAnalyzer.GenEnv) (md : String)
    (h : env.convertResult = .ok (some md)) :
    ∃ pre,
      (AiAnalyzer.get_company_profile env).2 =
        pre ++ [AiAnalyzer.ExEvent.invokeTier2
          (AiAnalyzer.settleResp env.tier1Resp)] ∧
      (∀ t1 : String, AiAnalyzer.ExEvent.invokeTier2 t1 ∉ pre) ∧
      ∀ i : Fin 6,
        AiAnalyzer.ExEvent.settled i.val
          (AiAnalyzer.settleResp (AiAnalyzer.indResp env i)) ∈ pre := by
  obtain ⟨-, htr⟩ := AiAnalyzer.get_company_profile_ok env md h
  refine ⟨[ .settled 0 (AiAnalyzer.settleResp env.nameResp),
    .settled 1 (AiAnalyzer.settleResp env.serviceResp),
    .settled 2 (AiAnalyzer.settleResp env.descResp),
    .settled 3 (AiAnalyzer.settleResp env.tier1Resp),
    .settled 4 (AiAnalyzer.settleResp env.emailsResp),
    .settled 5 (AiAnalyzer.settleResp env.pocResp) ], ?_, ?_, ?_⟩
  · rw [htr]
    rfl
  · intro t1
    simp
  · intro i
    fin_cases i <;> simp [AiAnalyzer.indResp]

/-- Claim C7 witness: at a run where tier-1 settles to "Unknown" (empty
extraction text), the tier-2 invocation event still closes the trace after
all six settlements. -/
theorem C7_witness :
    ∃ pre,
      (AiAnalyzer.get_company_profile envC7).2 =
        pre ++ [AiAnalyzer.ExEvent.invokeTier2 "Unknown"] ∧
      (∀ t1 : String, AiAnalyzer.ExEvent.invokeTier2 t1 ∉ pre) ∧
      ∀ i : Fin 6,
        AiAnalyzer.ExEvent.settled i.val
          (AiAnalyzer.settleResp (AiAnalyzer.indResp envC7 i)) ∈ pre :=
  C7_tier2_after_barrier envC7 "md" rfl

/-- Claim C8: if the subtasks in `S` (two of the six independent extraction
subtasks) raise or return empty while the others succeed with non-empty,
non-sentinel values, the profile carries the sentinel shape exactly in the
fields of `S` and the extracted value (in the field's shape) in every other
field: each field depends only on its own subtask's outcome. -/
theorem C8_partial_failure_isolation (env : AiAnalyzer.GenEnv) (md : String)
    (S : Finset (Fin 6)) (hconv : env.convertResult = .ok (some md))
    (hcard : S.card = 2)
    (hfail : ∀ i ∈ S, AiAnalyzer.respFails (AiAnalyzer.indResp env i) = true)
    (hsucc : ∀ i ∉ S, ∃ v, AiAnalyzer.indResp env i = .ok v ∧
      v ≠ "" ∧ v ≠ "Unknown") :
    ∀ i : Fin 6,
      (i ∈ S → AiAnalyzer.fieldOf (AiAnalyzer.get_company_profile env).1 i =
        AiAnalyzer.sentinelShape i) ∧
      (i ∉ S →
        AiAnalyzer.fieldOf (AiAnalyzer.get_company_profile env).1 i ≠
          AiAnalyzer.sentinelShape i ∧
        ∀ v, AiAnalyzer.indResp env i = .ok v →
          AiAnalyzer.fieldOf (AiAnalyzer.get_company_profile env).1 i =
            AiAnalyzer.valueShape i v) := by
  obtain ⟨hp, -⟩ := AiAnalyzer.get_company_profile_ok env md hconv
  intro i
  constructor
  · intro hS
    have hf := hfail i hS
    fin_cases i <;>
      simp only [AiAnalyzer.indResp] at hf <;>
      simp only [hp, AiAnalyzer.fieldOf, AiAnalyzer.sentinelShape]
    · exact (AiAnalyzer.scalar_field_spec env.nameResp).1 hf
    · exact (AiAnalyzer.list_field_spec env.serviceResp).1 hf
    · exact (AiAnalyzer.scalar_field_spec env.descResp).1 hf
    · exact (AiAnalyzer.list_field_spec env.tier1Resp).1 hf
    · exact (AiAnalyzer.list_field_spec env.emailsResp).1 hf
    · exact (AiAnalyzer.scalar_field_spec env.pocResp).1 hf
  · intro hS
    obtain ⟨v, hv, hne, hnu⟩ := hsucc i hS
    fin_cases i <;>
      simp only [AiAnalyzer.indResp] at hv <;>
      simp only [hp, AiAnalyzer.fieldOf, AiAnalyzer.sentinelShape,
        AiAnalyzer.valueShape]
    · refine ⟨((AiAnalyzer.scalar_field_spec env.nameResp).2 v hv hne hnu).1,
        fun w hw => ?_⟩
      have hvw : v = w := by
        simp only [AiAnalyzer.indResp] at hw
        rw [hv] at hw
        injection hw
      rw [← hvw]
      exact ((AiAnalyzer.scalar_field_spec env.nameResp).2 v hv hne hnu).2
    · refine ⟨((AiAnalyzer.list_field_spec env.serviceResp).2 v hv hne hnu).1,
        fun w hw => ?_⟩
      have hvw : v = w := by
        simp only [AiAnalyzer.indResp] at hw
        rw [hv] at hw
        injection hw
      rw [← hvw]
      exact ((AiAnalyzer.list_field_spec env.serviceResp).2 v hv hne hnu).2
    · refine ⟨((AiAnalyzer.scalar_field_spec env.descResp).2 v hv hne hnu).1,
        fun w hw => ?_⟩
      have hvw : v = w := by
        simp only [AiAnalyzer.indResp] at hw
        rw [hv] at hw
        injection hw
      rw [← hvw]
      exact ((AiAnalyzer.scalar_field_spec env.descResp).2 v hv hne hnu).2
    · refine ⟨((AiAnalyzer.list_field_spec env.tier1Resp).2 v hv hne hnu).1,
        fun w hw => ?_⟩
      have hvw : v = w := by
        simp only [AiAnalyzer.indResp] at hw
        rw [hv] at hw
        injection hw
      rw [← hvw]
      exact ((AiAnalyzer.list_field_spec env.tier1Resp).2 v hv hne hnu).2
    · refine ⟨((AiAnalyzer.list_field_spec env.emailsResp).2 v hv hne hnu).1,
        fun w hw => ?_⟩
      have hvw : v = w := by
        simp only [AiAnalyzer.indResp] at hw
        rw [hv] at hw
        injection hw
      rw [← hvw]
      exact ((AiAnalyzer.list_field_spec env.emailsResp).2 v hv hne hnu).2
    · refine ⟨((AiAnalyzer.scalar_field_spec env.pocResp).2 v hv hne hnu).1,
        fun w hw => ?_⟩
      have hvw : v = w := by
        simp only [AiAnalyzer.indResp] at hw
        rw [hv] at hw
        injection hw
      rw [← hvw]
      exact ((AiAnalyzer.scalar_field_spec env.pocResp).2 v hv hne hnu).2

/-- Claim C8 witness: with the company-name call raising and the tier-1 call
returning empty (failures `S = \x7b0, 3\x7d`) and the other four succeeding,
the name and tier-1 fields are sentinel-shaped and the service-lines field
carries the split of its extracted value. -/
theorem C8_witness :
    AiAnalyzer.fieldOf (AiAnalyzer.get_company_profile envC8).1 0 =
      AiAnalyzer.sentinelShape 0 ∧
    AiAnalyzer.fieldOf (AiAnalyzer.get_company_profile envC8).1 3 =
      AiAnalyzer.sentinelShape 3 ∧
    AiAnalyzer.fieldOf (AiAnalyzer.get_company_profile envC8).1 1 =
      AiAnalyzer.valueShape 1 "a, b" ∧
    AiAnalyzer.fieldOf (AiAnalyzer.get_company_profile envC8).1 1 ≠
      AiAnalyzer.sentinelShape 1 := by
  have h := C8_partial_failure_isolation envC8 "md" {0, 3} rfl (by decide)
    (by decide) ?_
  · exact ⟨(h 0).1 (by decide), (h 3).1 (by decide),
      ((h 1).2 (by decide)).2 "a, b" rfl, ((h 1).2 (by decide)).1⟩
  · intro i hi
    fin_cases i
    · exact absurd (by decide) hi
    · exact ⟨"a, b", rfl, by decide, by decide⟩
    · exact ⟨"desc", rfl, by decide, by decide⟩
    · exact absurd (by decide) hi
    · exact ⟨"e@x.com", rfl, by decide, by decide⟩
    · exact ⟨"Bob", rfl, by decide, by decide⟩
